import Mathlib

/-!
Verification development for the bevy-tower-defense simulation core
(`src/main.rs`).  The per-tick systems are embedded shallowly: Bevy
queries become lists of entity records, `Commands`-deferred despawns
become list filtering applied after the whole iteration, `f32` scalars
become `ℚ`, and the `Timer` resource is embedded with explicit fields.

Two representation choices, used throughout and justified once here:

* `f32` Euclidean distances (`Vec3::distance`) appear in the source only
  in comparisons between two distances or between a distance and the
  nonnegative tower range.  Since `√` is strictly monotone on
  nonnegatives, every such comparison is equivalent to the comparison of
  the squared quantities, so the embedding works with squared distances
  and stays inside `ℚ`.

* `glam`'s `Vec3::normalize` (and `Vec2::normalize`) returns
  `v * (1/‖v‖)`, whose components are NaN when `v` is the zero vector
  and are irrational in general.  The embedding returns `none` for the
  zero vector (the NaN case) and otherwise represents the exact value
  `v * (c/‖v‖)` symbolically as the numerator vector together with the
  squared length it is to be divided by (`ScaledVec`).
-/

/-- Planar vector of rationals, embedding `glam::Vec2`. -/
structure Vec2 where
  x : ℚ
  y : ℚ
deriving DecidableEq

/-- Spatial vector of rationals, embedding `glam::Vec3`. -/
structure Vec3 where
  x : ℚ
  y : ℚ
  z : ℚ
deriving DecidableEq

def Vec3.sub (a b : Vec3) : Vec3 :=
  ⟨a.x - b.x, a.y - b.y, a.z - b.z⟩

/-- Squared length of a `Vec3`; `length` is its square root. -/
def Vec3.normSq (v : Vec3) : ℚ :=
  v.x * v.x + v.y * v.y + v.z * v.z

def Vec3.smul (c : ℚ) (v : Vec3) : Vec3 :=
  ⟨c * v.x, c * v.y, c * v.z⟩

/-- Embeds `Vec3::truncate`, dropping the `z` component. -/
def Vec3.truncate (v : Vec3) : Vec2 :=
  ⟨v.x, v.y⟩

def Vec2.sub (a b : Vec2) : Vec2 :=
  ⟨a.x - b.x, a.y - b.y⟩

/-- Squared length of a `Vec2`. -/
def Vec2.normSq (v : Vec2) : ℚ :=
  v.x * v.x + v.y * v.y

/-- Componentwise halving, embedding the source's `scale.truncate() / 2.`. -/
def Vec2.half (v : Vec2) : Vec2 :=
  ⟨v.x / 2, v.y / 2⟩

/-- Squared Euclidean distance between two `Vec3`, embedding all uses of
`Vec3::distance(a, b)` in the source (see the header note: the source
only ever compares distances, which squaring preserves). -/
def dist2 (a b : Vec3) : ℚ :=
  Vec3.normSq (a.sub b)

/-- Squared Euclidean distance between two `Vec2`. -/
def dist2v2 (a b : Vec2) : ℚ :=
  Vec2.normSq (a.sub b)

/-- Scalar clamp, as used by `Aabb2d::closest_point`. -/
def clampQ (x lo hi : ℚ) : ℚ :=
  max lo (min x hi)

/-- Exact symbolic value of `num * (1/√divSq)`: the numerator vector and
the square of the length it is divided by (see the header note). -/
structure ScaledVec3 where
  num : Vec3
  divSq : ℚ
deriving DecidableEq

/-- Exact symbolic value of `num * (1/√divSq)` in the plane. -/
structure ScaledVec2 where
  num : Vec2
  divSq : ℚ
deriving DecidableEq

/-- Bevy repeating `Timer` (the only mode the source uses):
`duration` as configured, `elapsed` since the last wrap, and the
`just_finished()` observation for the current tick. -/
structure RTimer where
  duration : ℚ
  elapsed : ℚ
  justFinished : Bool
deriving DecidableEq

/-- Embeds `Timer::tick(delta)` for a repeating timer: elapsed time
accumulates; when it reaches the duration the timer reports
`just_finished` and wraps elapsed modulo the duration. -/
def RTimer.tick (t : RTimer) (delta : ℚ) : RTimer :=
  let e := t.elapsed + delta
  if t.duration ≤ e then
    { duration := t.duration
      elapsed := e - t.duration * ((⌊e / t.duration⌋ : ℤ) : ℚ)
      justFinished := true }
  else
    { duration := t.duration, elapsed := e, justFinished := false }

/-- The eight `Update` systems registered by `HelloPlugin::build`. -/
inductive Sys where
  | spawnEnemy
  | updateEnemyPosition
  | towerChooseTarget
  | towerShootTarget
  | updateProjectilesPosition
  | checkProjectileCollision
  | checkEnemyPlayerCollision
  | despawnCollidedEnemies
deriving DecidableEq

/-- The execution-order constraints `HelloPlugin::build` installs on the
`Update` schedule.  Bevy semantics: `add_systems(Update, (a, b, c, ...))`
adds every member of the tuple with NO ordering between the members;
only an inner `.chain()` call adds before/after edges between the
systems it joins.  The source chains exactly three pairs:
`(tower_choose_target, tower_shoot_target).chain()`,
`(update_projectiles_position, check_projectile_collision).chain()`, and
`(check_enemy_player_collision, despawn_collided_enemies).chain()`; the
remaining systems of the outer tuple carry no ordering constraints. -/
def scheduleConstraints : List (Sys × Sys) :=
  [ (Sys.towerChooseTarget, Sys.towerShootTarget),
    (Sys.updateProjectilesPosition, Sys.checkProjectileCollision),
    (Sys.checkEnemyPlayerCollision, Sys.despawnCollidedEnemies) ]

/-- Whether the schedule forces `a` to run before `b`. -/
def schedule_enforces (a b : Sys) : Bool :=
  scheduleConstraints.contains (a, b)

/-- The cross- and within-group edges the claim's fixed stage-group
order `Spawner → enemy motion → [targeting → fire] → [projectile motion
→ projectile collision] → [enemy/tower collision → sweep]` asserts. -/
def claimed_order_edges : List (Sys × Sys) :=
  [ (Sys.spawnEnemy, Sys.updateEnemyPosition),
    (Sys.updateEnemyPosition, Sys.towerChooseTarget),
    (Sys.towerChooseTarget, Sys.towerShootTarget),
    (Sys.towerShootTarget, Sys.updateProjectilesPosition),
    (Sys.updateProjectilesPosition, Sys.checkProjectileCollision),
    (Sys.checkProjectileCollision, Sys.checkEnemyPlayerCollision),
    (Sys.checkEnemyPlayerCollision, Sys.despawnCollidedEnemies) ]

/-- Opaque ECS entity handle. -/
abbrev EntityId := Nat

/-- Embeds Bevy `Transform` (translation and scale; the source never
reads rotation).  `Transform::from_xyz(x, y, z)` sets scale to 1. -/
structure Transform where
  translation : Vec3
  scale : Vec3
deriving DecidableEq

/-- An enemy entity: the components `spawn_enemy` attaches that the
simulation systems read (`Transform`, `Direction`, `Velocity`,
`Collided`), plus its entity handle. -/
structure Enemy where
  id : EntityId
  transform : Transform
  direction : Vec3
  velocity : ℚ
  collided : Bool
deriving DecidableEq

/-- A projectile entity: the components `tower_shoot_target` attaches
that the simulation systems read (`Transform`, `Direction`, `Velocity`,
`Target`), plus its entity handle.  `target` is an `Option` exactly as
the Rust component `Target(Option<Entity>)` is. -/
structure Projectile where
  id : EntityId
  transform : Transform
  direction : Vec3
  velocity : ℚ
  target : Option EntityId
deriving DecidableEq

/-- The tower (`Player`) entity assembled by `setup_tower`. -/
structure Tower where
  transform : Transform
  range : ℚ
  fireRate : ℚ
  cooldown : RTimer
  target : Option EntityId
deriving DecidableEq

/-- Embeds `Aabb2d::intersects` between the box centered at `c1` with
half-extents `h1` and the box centered at `c2` with half-extents `h2`
(`Aabb2d::new(center, half)` stores `min = center - half`,
`max = center + half`; intersection is the inclusive interval overlap
test on both axes). -/
def aabb2dIntersects (c1 h1 c2 h2 : Vec2) : Bool :=
  decide (c1.x - h1.x ≤ c2.x + h2.x ∧ c2.x - h2.x ≤ c1.x + h1.x ∧
          c1.y - h1.y ≤ c2.y + h2.y ∧ c2.y - h2.y ≤ c1.y + h1.y)

/-- Embeds `Aabb2d::closest_point`: clamps the point into the box. -/
def closestPointAabb (center half p : Vec2) : Vec2 :=
  ⟨clampQ p.x (center.x - half.x) (center.x + half.x),
   clampQ p.y (center.y - half.y) (center.y + half.y)⟩

/-- Embeds `BoundingCircle::intersects(&Aabb2d)`: the box's closest
point to the circle center lies within the radius (inclusive). -/
def circleAabbIntersects (center : Vec2) (radius : ℚ) (boxCenter boxHalf : Vec2) : Bool :=
  decide (dist2v2 (closestPointAabb boxCenter boxHalf center) center ≤ radius * radius)

/-- Embeds `spawn_enemy` lines 74-75: the drawn raw vector
`Vec2::new(gen_range(-100..100), gen_range(-100..100))` is normalized.
`none` is the NaN vector produced by normalizing a zero draw; otherwise
the unit direction is `raw * (1/√(normSq raw))`, kept symbolically. -/
def spawn_enemy_direction (raw : Vec2) : Option ScaledVec2 :=
  if raw.normSq = 0 then none
  else some { num := raw, divSq := raw.normSq }

/-- Embeds `spawn_enemy` lines 76-77 for an already-drawn unit
direction `d`: the spawn point is
`Vec2::new(w/2, h/2) + Vec2::new(w, h) * d`. -/
def spawn_position (w h : ℚ) (d : Vec2) : Vec2 :=
  ⟨w / 2 + w * d.x, h / 2 + h * d.y⟩

/-- Modelled from the spec: the "visible viewport area" (which lives in
the out-of-scope rendering layer, not in the simulation core) is the
`w × h` rectangle whose center is the viewport center
`(w/2, h/2)` that `spawn_enemy` offsets from. -/
def insideViewport (w h : ℚ) (p : Vec2) : Prop :=
  0 ≤ p.x ∧ p.x ≤ w ∧ 0 ≤ p.y ∧ p.y ≤ h

/-- Per-entity body of `update_enemy_position`:
`transform.translation += direction.normalize() * velocity * dt`.
`none` is the NaN position produced when `direction` is the zero vector;
otherwise the result is the base translation plus the exact offset
`direction * (velocity*dt) / √(normSq direction)`. -/
def update_enemy_position_step (t : Transform) (direction : Vec3) (velocity dt : ℚ) :
    Option (Vec3 × ScaledVec3) :=
  if direction.normSq = 0 then none
  else some (t.translation, { num := Vec3.smul (velocity * dt) direction, divSq := direction.normSq })

/-- Per-entity body of `update_projectiles_position`:
`transform.translation += direction.normalize() * velocity * dt`
(textually identical to the enemy system's body; only the query filter
`With<Projectile>` instead of `With<Enemy>` differs). -/
def update_projectiles_position_step (t : Transform) (direction : Vec3) (velocity dt : ℚ) :
    Option (Vec3 × ScaledVec3) :=
  if direction.normSq = 0 then none
  else some (t.translation, { num := Vec3.smul (velocity * dt) direction, divSq := direction.normSq })

/-- Modelled from the spec: the single Motion Integrator, "advance
position by normalize(direction) * speed * elapsed_time", in the same
symbolic representation as the code's two systems. -/
def motion_integrator (t : Transform) (direction : Vec3) (speed dt : ℚ) :
    Option (Vec3 × ScaledVec3) :=
  if direction.normSq = 0 then none
  else some (t.translation, { num := Vec3.smul (speed * dt) direction, divSq := direction.normSq })

/-- Embeds `check_enemy_player_collision`: every enemy whose Aabb
(centered at its translation, half-extents `scale.truncate()/2`)
intersects the tower's Aabb gets its `Collided` flag set to `true`. -/
def check_enemy_player_collision (player : Transform) (enemies : List Enemy) : List Enemy :=
  enemies.map fun e =>
    if aabb2dIntersects e.transform.translation.truncate e.transform.scale.truncate.half
        player.translation.truncate player.scale.truncate.half then
      { e with collided := true }
    else
      e

/-- Embeds `despawn_collided_enemies`: every enemy whose `Collided`
flag is `true` is despawned (the `Commands` all apply after the
iteration, hence plain filtering of the snapshot). -/
def despawn_collided_enemies (enemies : List Enemy) : List Enemy :=
  enemies.filter fun e => !e.collided

/-- The loop body of `tower_choose_target`: walks the enemy query
keeping the closest entity seen so far.  The source initializes
`closest_enemy = None` and `distance_to_player = f32::MAX`; the
accumulator pairs the two, with `none` standing for the initial state
(any actual distance compares below `f32::MAX`, and distances are
compared squared, see the header note). -/
def closest_enemy_loop (ppos : Vec3) : List Enemy → Option (EntityId × ℚ) → Option (EntityId × ℚ)
  | [], best => best
  | e :: rest, best =>
    let d := dist2 e.transform.translation ppos
    match best with
    | none => closest_enemy_loop ppos rest (some (e.id, d))
    | some b =>
      if d < b.2 then closest_enemy_loop ppos rest (some (e.id, d))
      else closest_enemy_loop ppos rest (some b)

/-- Embeds `tower_choose_target`: the tower's target is overwritten
with the closest living enemy (or `None` if there are none). -/
def tower_choose_target (enemies : List Enemy) (tw : Tower) : Tower :=
  { tw with target := (closest_enemy_loop tw.transform.translation enemies none).map Prod.fst }

/-- Embeds `tower_shoot_target`: the cooldown ticks unconditionally;
then, if the target handle is set, still resolves in the enemy query,
the (squared) distance is below the (squared) range, and the ticked
cooldown just finished, a projectile is spawned with the tower's
transform, `Velocity(100.0)`, `Target(Some(enemy))`, and direction
`enemy.translation - tower.translation`. -/
def tower_shoot_target (dt : ℚ) (enemies : List Enemy) (tw : Tower) (freshId : EntityId) :
    Tower × Option Projectile :=
  let cooldown := tw.cooldown.tick dt
  let tw' := { tw with cooldown := cooldown }
  match tw.target with
  | none => (tw', none)
  | some enemyId =>
    match enemies.find? (fun e => e.id == enemyId) with
    | none => (tw', none)
    | some enemy =>
      if dist2 enemy.transform.translation tw.transform.translation < tw.range * tw.range then
        if cooldown.justFinished then
          (tw', some { id := freshId
                       transform := tw.transform
                       direction := enemy.transform.translation.sub tw.transform.translation
                       velocity := 100
                       target := some enemyId })
        else (tw', none)
      else (tw', none)

/-- Outcome of `check_projectile_collision` for a single projectile. -/
inductive ProjOutcome where
  | keep
  | despawnProj
  | despawnBoth (enemyId : EntityId)
deriving DecidableEq

/-- The overlap test of `check_projectile_collision`: the
radius-`5.0/2.` bounding circle at the projectile's translation against
the Aabb at the enemy's translation with half-extents
`scale.truncate()/2`. -/
def projectile_hits (p : Projectile) (enemy : Enemy) : Bool :=
  circleAabbIntersects p.transform.translation.truncate (5 / 2)
    enemy.transform.translation.truncate enemy.transform.scale.truncate.half

/-- The loop body of `check_projectile_collision` for one projectile:
panics (the `expect`) when the `Target` component holds `None`;
despawns the projectile when the handle no longer resolves; otherwise
applies the overlap test, despawning both on intersection. -/
def check_projectile_one (enemies : List Enemy) (p : Projectile) : Except String ProjOutcome :=
  match p.target with
  | none => Except.error "Projectiles are alawys expected to have a target?"
  | some enemyId =>
    match enemies.find? (fun e => e.id == enemyId) with
    | none => Except.ok ProjOutcome.despawnProj
    | some enemy =>
      if projectile_hits p enemy then
        Except.ok (ProjOutcome.despawnBoth enemyId)
      else
        Except.ok ProjOutcome.keep

/-- Proof-side restatement of `check_projectile_one` on projectiles
that do have a target (where it cannot panic), used to phrase the
collision results; `ProjOutcome.keep` in the `none` target branch is
arbitrary (that branch is the panic). -/
def projectile_outcome (enemies : List Enemy) (p : Projectile) : ProjOutcome :=
  match p.target with
  | none => ProjOutcome.keep
  | some enemyId =>
    match enemies.find? (fun e => e.id == enemyId) with
    | none => ProjOutcome.despawnProj
    | some enemy =>
      if projectile_hits p enemy then ProjOutcome.despawnBoth enemyId
      else ProjOutcome.keep

/-- Walks the projectile query in order, stopping at the first panic. -/
def collect_outcomes (enemies : List Enemy) :
    List Projectile → Except String (List (Projectile × ProjOutcome))
  | [] => Except.ok []
  | p :: rest =>
    match check_projectile_one enemies p with
    | Except.error msg => Except.error msg
    | Except.ok o =>
      match collect_outcomes enemies rest with
      | Except.error msg => Except.error msg
      | Except.ok outs => Except.ok ((p, o) :: outs)

/-- Embeds `check_projectile_collision`: all per-projectile outcomes are
decided against the pre-tick enemy snapshot (despawns go through
`Commands` and apply only after the iteration), then the despawns are
applied.  The `Except.error` case is the `expect` panic. -/
def check_projectile_collision (ps : List Projectile) (enemies : List Enemy) :
    Except String (List Projectile × List Enemy) :=
  match collect_outcomes enemies ps with
  | Except.error msg => Except.error msg
  | Except.ok outs =>
    let deadEnemies := outs.filterMap fun po =>
      match po.2 with
      | ProjOutcome.despawnBoth i => some i
      | _ => none
    let keptProjectiles := outs.filterMap fun po =>
      match po.2 with
      | ProjOutcome.keep => some po.1
      | _ => none
    Except.ok (keptProjectiles, enemies.filter fun e => !(deadEnemies.contains e.id))

/-- The projectile/enemy check as claim C4 words it, for comparison
with `check_projectile_one`: identical except that the enemy box's
half-extents are the claimed `5 × 5` (half the 10×10 render size)
instead of the code's `transform.scale / 2`. -/
def check_projectile_one_claimed (enemies : List Enemy) (p : Projectile) :
    Except String ProjOutcome :=
  match p.target with
  | none => Except.error "Projectiles are alawys expected to have a target?"
  | some enemyId =>
    match enemies.find? (fun e => e.id == enemyId) with
    | none => Except.ok ProjOutcome.despawnProj
    | some enemy =>
      if circleAabbIntersects p.transform.translation.truncate (5 / 2)
          enemy.transform.translation.truncate ⟨5, 5⟩ then
        Except.ok (ProjOutcome.despawnBoth enemyId)
      else
        Except.ok ProjOutcome.keep

/-- A tower as `setup_tower` builds it (range 200, fire rate 1,
repeating 0.2 cooldown, at the origin with unit transform scale), with
an acquired target. -/
def towerW : Tower :=
  { transform := { translation := ⟨0, 0, 0⟩, scale := ⟨1, 1, 1⟩ }
    range := 200
    fireRate := 1
    cooldown := { duration := 1 / 5, elapsed := 0, justFinished := false }
    target := some 1 }

/-- An enemy 50 units to the right of the tower. -/
def enemyW : Enemy :=
  { id := 1
    transform := { translation := ⟨50, 0, 0⟩, scale := ⟨1, 1, 1⟩ }
    direction := ⟨-50, 0, 0⟩
    velocity := 100
    collided := false }

/-- An enemy standing half a unit from the tower's center, overlapping
the tower's box. -/
def enemyTouching : Enemy :=
  { id := 2
    transform := { translation := ⟨1 / 2, 0, 0⟩, scale := ⟨1, 1, 1⟩ }
    direction := ⟨-1, 0, 0⟩
    velocity := 100
    collided := false }

/-- An enemy at `(1, 0)` with the unit transform scale spawned enemies
carry. -/
def enemyHit : Enemy :=
  { id := 1
    transform := { translation := ⟨1, 0, 0⟩, scale := ⟨1, 1, 1⟩ }
    direction := ⟨-1, 0, 0⟩
    velocity := 100
    collided := false }

/-- A projectile sitting exactly on `enemyHit`, targeting it. -/
def projAtEnemy : Projectile :=
  { id := 5
    transform := { translation := ⟨1, 0, 0⟩, scale := ⟨1, 1, 1⟩ }
    direction := ⟨1, 0, 0⟩
    velocity := 100
    target := some 1 }

/-- An enemy 4 units from the projectile below: inside the claimed
5-unit half-extent box, outside the code's scale-derived half-extent
(1/2) box grown by the 5/2 circle radius. -/
def enemyFour : Enemy :=
  { id := 3
    transform := { translation := ⟨4, 0, 0⟩, scale := ⟨1, 1, 1⟩ }
    direction := ⟨-1, 0, 0⟩
    velocity := 100
    collided := false }

/-- A projectile at the origin targeting `enemyFour`. -/
def projOrigin : Projectile :=
  { id := 8
    transform := { translation := ⟨0, 0, 0⟩, scale := ⟨1, 1, 1⟩ }
    direction := ⟨4, 0, 0⟩
    velocity := 100
    target := some 3 }

/-! ## Theorems -/

/-- C1, counterexample: the claimed fixed stage-group order is not what
the code installs.  `HelloPlugin::build` only chains three pairs; the
cross-group edges the claim asserts (for instance Spawner before the
enemy Motion Integrator) are not enforced by the schedule, so the
stage-groups may interleave. -/
theorem claimed_stage_order_not_enforced :
    ¬ (claimed_order_edges.all fun e => schedule_enforces e.1 e.2) = true := by
  decide

/-- C1, amended: the schedule enforces exactly the three chained pairs
(targeting before fire control, projectile motion before the
projectile/enemy collision check, and the enemy/tower collision check
before the lifecycle sweep); no other pair of `Update` systems is
ordered, so the five stage-groups of the claim may run in any relative
order and interleave. -/
theorem schedule_enforces_exactly_chained_pairs :
    schedule_enforces Sys.towerChooseTarget Sys.towerShootTarget = true ∧
    schedule_enforces Sys.updateProjectilesPosition Sys.checkProjectileCollision = true ∧
    schedule_enforces Sys.checkEnemyPlayerCollision Sys.despawnCollidedEnemies = true ∧
    ∀ a b : Sys, schedule_enforces a b = true →
      (a, b) = (Sys.towerChooseTarget, Sys.towerShootTarget) ∨
      (a, b) = (Sys.updateProjectilesPosition, Sys.checkProjectileCollision) ∨
      (a, b) = (Sys.checkEnemyPlayerCollision, Sys.despawnCollidedEnemies) := by
  refine ⟨by decide, by decide, by decide, ?_⟩
  intro a b h
  revert h
  cases a <;> cases b <;> decide

/-- C1, witness for the amended theorem: instantiating its final
conjunct at the chained pair (targeting, fire control). -/
theorem schedule_enforces_exactly_chained_pairs_witness :
    (Sys.towerChooseTarget, Sys.towerShootTarget) =
        (Sys.towerChooseTarget, Sys.towerShootTarget) ∨
      (Sys.towerChooseTarget, Sys.towerShootTarget) =
        (Sys.updateProjectilesPosition, Sys.checkProjectileCollision) ∨
      (Sys.towerChooseTarget, Sys.towerShootTarget) =
        (Sys.checkEnemyPlayerCollision, Sys.despawnCollidedEnemies) :=
  schedule_enforces_exactly_chained_pairs.2.2.2
    Sys.towerChooseTarget Sys.towerShootTarget (by decide)

/-- C10: the per-entity position update of `update_enemy_position` and
that of `update_projectiles_position` are the same function of
(transform, direction, velocity, elapsed time) — both advance the
translation by `direction.normalize() * velocity * dt` — and both agree
with the spec's single Motion Integrator; the two systems differ only
in the query filter selecting which entities they touch. -/
theorem motion_integrators_extensionally_equal :
    update_enemy_position_step = update_projectiles_position_step ∧
    update_enemy_position_step = motion_integrator :=
  ⟨rfl, rfl⟩

/-- C6: the code does NOT tolerate zero-magnitude directions.  An enemy
whose `Direction` is the zero vector makes `update_enemy_position`
compute `Vec3::ZERO.normalize()`, whose components are NaN (`none` in
this embedding), and the NaN translation flows into the subsequent
collision checks; likewise a degenerate zero random draw in
`spawn_enemy` is normalized into a NaN spawn direction rather than
being resampled.  This contradicts the claim's requirement of leaving
the position unchanged or failing closed. -/
theorem zero_direction_produces_nan :
    update_enemy_position_step
        { translation := ⟨0, 0, 0⟩, scale := ⟨1, 1, 1⟩ } ⟨0, 0, 0⟩ 100 (1 / 60) = none ∧
    spawn_enemy_direction ⟨0, 0⟩ = none := by
  constructor
  · norm_num [update_enemy_position_step, Vec3.normSq]
  · norm_num [spawn_enemy_direction, Vec2.normSq]

/-- C9: for any non-degenerate unit direction `d` and positive viewport
dimensions, the spawn point `viewport_center + viewport_size * d`
computed by `spawn_enemy` lies outside the visible viewport area. -/
theorem spawn_position_outside_viewport (w h : ℚ) (d : Vec2)
    (hw : 0 < w) (hh : 0 < h) (hd : d.normSq = 1) :
    ¬ insideViewport w h (spawn_position w h d) := by
  rintro ⟨hx0, hxw, hy0, hyh⟩
  simp only [spawn_position, Vec2.normSq] at hx0 hxw hy0 hyh hd
  have hx : d.x ≤ 1 / 2 := by nlinarith
  have hx' : -(1 / 2) ≤ d.x := by nlinarith
  have hy : d.y ≤ 1 / 2 := by nlinarith
  have hy' : -(1 / 2) ≤ d.y := by nlinarith
  have hxsq : d.x * d.x ≤ 1 / 4 := by nlinarith
  have hysq : d.y * d.y ≤ 1 / 4 := by nlinarith
  linarith

/-- C9, witness: the unit direction `(3/5, 4/5)` on a 100×100 viewport
spawns at `(110, 130)`, outside the viewport. -/
theorem spawn_position_outside_viewport_witness :
    ¬ insideViewport 100 100 (spawn_position 100 100 ⟨3 / 5, 4 / 5⟩) :=
  spawn_position_outside_viewport 100 100 ⟨3 / 5, 4 / 5⟩ (by norm_num) (by norm_num)
    (by norm_num [Vec2.normSq])

/-- C2: `tower_shoot_target` always replaces the tower's cooldown by
the cooldown ticked with the elapsed time (and changes nothing else on
the tower); a projectile is created iff the tower has a target handle,
the handle still resolves in the enemy query, the (squared) distance
from tower to that enemy is below the (squared) range, and the ticked
repeating cooldown just finished; and the created projectile carries
the tower's transform, direction `enemy translation − tower
translation` (a snapshot), velocity 100, and the locked handle. -/
theorem tower_shoot_target_spec (dt : ℚ) (enemies : List Enemy) (tw : Tower)
    (freshId : EntityId) :
    (tower_shoot_target dt enemies tw freshId).1 =
      { tw with cooldown := tw.cooldown.tick dt } ∧
    ((tower_shoot_target dt enemies tw freshId).2.isSome ↔
      ∃ enemyId enemy, tw.target = some enemyId ∧
        enemies.find? (fun e => e.id == enemyId) = some enemy ∧
        dist2 enemy.transform.translation tw.transform.translation < tw.range * tw.range ∧
        (tw.cooldown.tick dt).justFinished = true) ∧
    (∀ p, (tower_shoot_target dt enemies tw freshId).2 = some p →
      ∃ enemyId enemy, tw.target = some enemyId ∧
        enemies.find? (fun e => e.id == enemyId) = some enemy ∧
        p.transform = tw.transform ∧
        p.direction = enemy.transform.translation.sub tw.transform.translation ∧
        p.velocity = 100 ∧ p.target = some enemyId ∧ p.id = freshId) := by
  cases htgt : tw.target with
  | none =>
    have hres : tower_shoot_target dt enemies tw freshId =
        ({ transform := tw.transform, range := tw.range, fireRate := tw.fireRate,
           cooldown := tw.cooldown.tick dt, target := none }, none) := by
      simp only [tower_shoot_target, htgt]
    rw [hres]
    refine ⟨rfl, ?_, ?_⟩
    · simp only [Option.isSome_none, Bool.false_eq_true, false_iff]
      rintro ⟨i, e, hi, -, -, -⟩
      exact Option.noConfusion hi
    · intro p hp
      exact Option.noConfusion hp
  | some enemyId =>
    cases hfind : enemies.find? (fun e => e.id == enemyId) with
    | none =>
      have hres : tower_shoot_target dt enemies tw freshId =
          ({ transform := tw.transform, range := tw.range, fireRate := tw.fireRate,
             cooldown := tw.cooldown.tick dt, target := some enemyId }, none) := by
        simp only [tower_shoot_target, htgt, hfind]
      rw [hres]
      refine ⟨rfl, ?_, ?_⟩
      · simp only [Option.isSome_none, Bool.false_eq_true, false_iff]
        rintro ⟨i, e, hi, hf, -, -⟩
        rw [Option.some_inj] at hi
        subst hi
        rw [hfind] at hf
        exact Option.noConfusion hf
      · intro p hp
        exact Option.noConfusion hp
    | some enemy =>
      by_cases hdist :
          dist2 enemy.transform.translation tw.transform.translation < tw.range * tw.range
      · by_cases hcd : (RTimer.tick tw.cooldown dt).justFinished = true
        · have hres : tower_shoot_target dt enemies tw freshId =
              ({ transform := tw.transform, range := tw.range, fireRate := tw.fireRate,
                 cooldown := tw.cooldown.tick dt, target := some enemyId },
                some { id := freshId
                       transform := tw.transform
                       direction := enemy.transform.translation.sub tw.transform.translation
                       velocity := 100
                       target := some enemyId }) := by
            simp only [tower_shoot_target, htgt, hfind]
            rw [if_pos hdist, if_pos hcd]
          rw [hres]
          refine ⟨rfl, ?_, ?_⟩
          · simp only [Option.isSome_some, true_iff]
            exact ⟨enemyId, enemy, rfl, hfind, hdist, hcd⟩
          · intro p hp
            rw [Option.some_inj] at hp
            subst hp
            exact ⟨enemyId, enemy, rfl, hfind, rfl, rfl, rfl, rfl, rfl⟩
        · have hres : tower_shoot_target dt enemies tw freshId =
              ({ transform := tw.transform, range := tw.range, fireRate := tw.fireRate,
                 cooldown := tw.cooldown.tick dt, target := some enemyId }, none) := by
            simp only [tower_shoot_target, htgt, hfind]
            rw [if_pos hdist, if_neg hcd]
          rw [hres]
          refine ⟨rfl, ?_, ?_⟩
          · simp only [Option.isSome_none, Bool.false_eq_true, false_iff]
            rintro ⟨i, e, hi, hf, -, hc⟩
            rw [Option.some_inj] at hi
            subst hi
            exact hcd hc
          · intro p hp
            exact Option.noConfusion hp
      · have hres : tower_shoot_target dt enemies tw freshId =
            ({ transform := tw.transform, range := tw.range, fireRate := tw.fireRate,
               cooldown := tw.cooldown.tick dt, target := some enemyId }, none) := by
          simp only [tower_shoot_target, htgt, hfind]
          rw [if_neg hdist]
        rw [hres]
        refine ⟨rfl, ?_, ?_⟩
        · simp only [Option.isSome_none, Bool.false_eq_true, false_iff]
          rintro ⟨i, e, hi, hf, hd, -⟩
          rw [Option.some_inj] at hi
          subst hi
          rw [hfind, Option.some_inj] at hf
          subst hf
          exact hdist hd
        · intro p hp
          exact Option.noConfusion hp

/-- C2, witness: with the enemy at distance 50 < 200 and the cooldown
elapsing exactly this tick, a projectile is created. -/
theorem tower_shoot_target_spec_witness :
    (tower_shoot_target (1 / 5) [enemyW] towerW 9).2.isSome = true :=
  (tower_shoot_target_spec (1 / 5) [enemyW] towerW 9).2.1.mpr
    ⟨1, enemyW, rfl, by simp [enemyW, List.find?],
      by norm_num [dist2, Vec3.normSq, Vec3.sub, enemyW, towerW],
      by norm_num [RTimer.tick, towerW]⟩

/-- Characterization of the selection loop of `tower_choose_target`
when started from a seen candidate `b`: the loop returns a candidate no
farther than `b` and than any scanned enemy, and that candidate is
either `b` itself or the first scanned enemy realizing a strictly
smaller distance than everything before it. -/
theorem closest_loop_characterization (ppos : Vec3) :
    ∀ (es : List Enemy) (b : EntityId × ℚ),
      ∃ c, closest_enemy_loop ppos es (some b) = some c ∧
        c.2 ≤ b.2 ∧
        (∀ e ∈ es, c.2 ≤ dist2 e.transform.translation ppos) ∧
        (c = b ∨ ∃ pre e post, es = pre ++ e :: post ∧
          c = (e.id, dist2 e.transform.translation ppos) ∧ c.2 < b.2 ∧
          ∀ e' ∈ pre, c.2 < dist2 e'.transform.translation ppos) := by
  intro es
  induction es with
  | nil =>
    intro b
    exact ⟨b, rfl, le_refl _, by simp, Or.inl rfl⟩
  | cons e rest ih =>
    intro b
    by_cases hd : dist2 e.transform.translation ppos < b.2
    · obtain ⟨c, hc, hle, hall, hcase⟩ := ih (e.id, dist2 e.transform.translation ppos)
      refine ⟨c, ?_, le_trans hle (le_of_lt hd), ?_, ?_⟩
      · simp only [closest_enemy_loop]
        rw [if_pos hd]
        exact hc
      · intro e' he'
        rcases List.mem_cons.mp he' with h | h
        · subst h
          exact hle
        · exact hall e' h
      · rcases hcase with hcb | ⟨pre, x, post, hsplit, hcx, hlt, hpre⟩
        · refine Or.inr ⟨[], e, rest, rfl, hcb, ?_, by simp⟩
          rw [hcb]
          exact hd
        · refine Or.inr ⟨e :: pre, x, post, by rw [hsplit, List.cons_append], hcx,
            lt_trans hlt hd, ?_⟩
          intro e' he'
          rcases List.mem_cons.mp he' with h | h
          · subst h
            exact hlt
          · exact hpre e' h
    · obtain ⟨c, hc, hle, hall, hcase⟩ := ih b
      have hbd : b.2 ≤ dist2 e.transform.translation ppos := not_lt.mp hd
      refine ⟨c, ?_, hle, ?_, ?_⟩
      · simp only [closest_enemy_loop]
        rw [if_neg hd]
        exact hc
      · intro e' he'
        rcases List.mem_cons.mp he' with h | h
        · subst h
          exact le_trans hle hbd
        · exact hall e' h
      · rcases hcase with hcb | ⟨pre, x, post, hsplit, hcx, hlt, hpre⟩
        · exact Or.inl hcb
        · refine Or.inr ⟨e :: pre, x, post, by rw [hsplit, List.cons_append], hcx,
            hlt, ?_⟩
          intro e' he'
          rcases List.mem_cons.mp he' with h | h
          · subst h
            exact lt_of_lt_of_le hlt hbd
          · exact hpre e' h

/-- C3: `tower_choose_target` clears the target exactly when no enemy
exists; otherwise the written handle belongs to a scanned enemy whose
(squared) distance to the tower is minimal, every strictly earlier
enemy of the scan being strictly farther (first-seen-minimum); and the
previous target value has no influence on the result (unconditional
overwrite). -/
theorem tower_choose_target_spec (enemies : List Enemy) (tw : Tower) :
    ((tower_choose_target enemies tw).target = none ↔ enemies = []) ∧
    (∀ i, (tower_choose_target enemies tw).target = some i →
      ∃ pre e post, enemies = pre ++ e :: post ∧ e.id = i ∧
        (∀ e' ∈ enemies, dist2 e.transform.translation tw.transform.translation ≤
          dist2 e'.transform.translation tw.transform.translation) ∧
        (∀ e' ∈ pre, dist2 e.transform.translation tw.transform.translation <
          dist2 e'.transform.translation tw.transform.translation)) ∧
    (∀ t0, (tower_choose_target enemies { tw with target := t0 }).target =
      (tower_choose_target enemies tw).target) := by
  refine ⟨?_, ?_, ?_⟩
  · cases enemies with
    | nil => simp [tower_choose_target, closest_enemy_loop]
    | cons e rest =>
      obtain ⟨c, hc, -, -, -⟩ := closest_loop_characterization
        tw.transform.translation rest (e.id, dist2 e.transform.translation tw.transform.translation)
      constructor
      · intro hnone
        rw [tower_choose_target] at hnone
        simp only [closest_enemy_loop, hc] at hnone
        exact absurd hnone (by simp)
      · intro h
        exact List.noConfusion h
  · intro i hi
    cases enemies with
    | nil =>
      rw [tower_choose_target] at hi
      simp only [closest_enemy_loop] at hi
      exact Option.noConfusion hi
    | cons e rest =>
      obtain ⟨c, hc, hle, hall, hcase⟩ := closest_loop_characterization
        tw.transform.translation rest (e.id, dist2 e.transform.translation tw.transform.translation)
      rw [tower_choose_target] at hi
      simp only [closest_enemy_loop, hc, Option.map_some, Option.some_inj] at hi
      rcases hcase with hcb | ⟨pre, x, post, hsplit, hcx, hlt, hpre⟩
      · refine ⟨[], e, rest, rfl, ?_, ?_, by simp⟩
        · rw [hcb] at hi
          simpa using hi
        · intro e' he'
          rcases List.mem_cons.mp he' with h | h
          · subst h
            exact le_refl _
          · have := hall e' h
            rw [hcb] at this
            exact this
      · refine ⟨e :: pre, x, post, by rw [hsplit, List.cons_append], ?_, ?_, ?_⟩
        · rw [hcx] at hi
          simpa using hi
        · intro e' he'
          have hx2 : c.2 = dist2 x.transform.translation tw.transform.translation := by
            rw [hcx]
          rcases List.mem_cons.mp he' with h | h
          · subst h
            rw [← hx2]
            exact le_of_lt hlt
          · rw [← hx2]
            exact hall e' h
        · intro e' he'
          have hx2 : c.2 = dist2 x.transform.translation tw.transform.translation := by
            rw [hcx]
          rcases List.mem_cons.mp he' with h | h
          · subst h
            rw [← hx2]
            exact hlt
          · rw [← hx2]
            exact hpre e' h
  · intro t0
    rfl

/-- C3, witness: with no enemies the target is cleared to `none`. -/
theorem tower_choose_target_spec_witness :
    (tower_choose_target [] towerW).target = none :=
  (tower_choose_target_spec [] towerW).1.mpr rfl

/-- C5: `check_enemy_player_collision` keeps every enemy, preserving
all its components except the collided flag, which becomes `true`
exactly when the enemy's scale-derived box overlaps the tower's
scale-derived box (and stays as it was otherwise); the sweeper keeps
exactly the enemies whose flag is `false`, destroying every flagged
one; and the schedule chains the sweeper strictly after the check in
the same stage-group. -/
theorem enemy_tower_collision_and_sweep_spec (player : Transform) (es : List Enemy) :
    List.Forall₂ (fun e f =>
        f.id = e.id ∧ f.transform = e.transform ∧ f.direction = e.direction ∧
        f.velocity = e.velocity ∧
        f.collided = (e.collided ||
          aabb2dIntersects e.transform.translation.truncate e.transform.scale.truncate.half
            player.translation.truncate player.scale.truncate.half))
      es (check_enemy_player_collision player es) ∧
    (∀ e, e ∈ despawn_collided_enemies (check_enemy_player_collision player es) ↔
      e ∈ check_enemy_player_collision player es ∧ e.collided = false) ∧
    schedule_enforces Sys.checkEnemyPlayerCollision Sys.despawnCollidedEnemies = true := by
  refine ⟨?_, ?_, by decide⟩
  · rw [check_enemy_player_collision, List.forall₂_map_right_iff]
    rw [List.forall₂_same]
    intro e he
    by_cases hov : aabb2dIntersects e.transform.translation.truncate
        e.transform.scale.truncate.half player.translation.truncate
        player.scale.truncate.half = true
    · rw [if_pos hov, hov]
      exact ⟨rfl, rfl, rfl, rfl, by simp⟩
    · rw [if_neg hov]
      rw [Bool.not_eq_true] at hov
      rw [hov]
      exact ⟨rfl, rfl, rfl, rfl, by simp⟩
  · intro e
    simp [despawn_collided_enemies, List.mem_filter]

/-- C5, witness: the sweeper membership characterization at the enemy
half a unit from the tower. -/
theorem enemy_tower_collision_and_sweep_spec_witness :
    enemyTouching ∈
        despawn_collided_enemies (check_enemy_player_collision towerW.transform [enemyTouching]) ↔
      enemyTouching ∈ check_enemy_player_collision towerW.transform [enemyTouching] ∧
        enemyTouching.collided = false :=
  (enemy_tower_collision_and_sweep_spec towerW.transform [enemyTouching]).2.1 enemyTouching

/-- On a projectile that does have a target, the collision loop body
cannot panic and agrees with `projectile_outcome`. -/
theorem check_projectile_one_eq (es : List Enemy) (p : Projectile) (h : p.target ≠ none) :
    check_projectile_one es p = Except.ok (projectile_outcome es p) := by
  obtain ⟨pid, ptr, pdir, pvel, ptgt⟩ := p
  cases ptgt with
  | none => exact absurd rfl h
  | some enemyId =>
    simp only [check_projectile_one, projectile_outcome]
    cases es.find? (fun e => e.id == enemyId) with
    | none => rfl
    | some enemy =>
      split <;> first
        | rfl
        | exact (apply_ite Except.ok _ _ _).symm

/-- When every projectile has a target, walking the query collects the
outcome of every projectile, without panicking. -/
theorem collect_outcomes_eq (es : List Enemy) :
    ∀ ps : List Projectile, (∀ p ∈ ps, p.target ≠ none) →
      collect_outcomes es ps = Except.ok (ps.map fun p => (p, projectile_outcome es p)) := by
  intro ps
  induction ps with
  | nil => intro _; rfl
  | cons p rest ih =>
    intro h
    rw [collect_outcomes, check_projectile_one_eq es p (h p (List.mem_cons_self p rest)),
      ih fun q hq => h q (List.mem_cons_of_mem p hq)]
    rfl

/-- Under distinct enemy ids, `find?` by the id of a present enemy
returns exactly that enemy. -/
theorem find_id_of_mem_nodup {es : List Enemy} (hnd : (es.map Enemy.id).Nodup)
    {e : Enemy} (he : e ∈ es) :
    es.find? (fun x => x.id == e.id) = some e := by
  induction es with
  | nil => cases he
  | cons a rest ih =>
    rw [List.map_cons, List.nodup_cons] at hnd
    rcases List.mem_cons.mp he with h | h
    · subst h
      rw [List.find?_cons_of_pos]
      simp
    · have hne : ¬ (a.id == e.id) = true := by
        intro hbeq
        have heq : a.id = e.id := by simpa using hbeq
        exact hnd.1 (heq ▸ List.mem_map_of_mem Enemy.id h)
      rw [show List.find? (fun x => x.id == e.id) (a :: rest) =
          List.find? (fun x => x.id == e.id) rest from List.find?_cons_of_neg rest hne]
      exact ih hnd.2 h

/-- Under distinct enemy ids, the id determines the enemy. -/
theorem enemy_id_inj {es : List Enemy} (hnd : (es.map Enemy.id).Nodup) :
    ∀ a ∈ es, ∀ b ∈ es, a.id = b.id → a = b :=
  List.inj_on_of_nodup_map hnd

/-- A projectile with a target is kept exactly when its target still
resolves to a live enemy it does not overlap. -/
theorem projectile_outcome_keep_iff {es : List Enemy} (hnd : (es.map Enemy.id).Nodup)
    {p : Projectile} (h : p.target ≠ none) :
    projectile_outcome es p = ProjOutcome.keep ↔
      ∃ e ∈ es, p.target = some e.id ∧ projectile_hits p e = false := by
  obtain ⟨pid, ptr, pdir, pvel, ptgt⟩ := p
  cases ptgt with
  | none => exact absurd rfl h
  | some i =>
    simp only [projectile_outcome]
    split
    next hf =>
      constructor
      · intro hcon
        exact ProjOutcome.noConfusion hcon
      · rintro ⟨e, he, hti, -⟩
        rw [Option.some_inj] at hti
        subst hti
        rw [find_id_of_mem_nodup hnd he] at hf
        exact Option.noConfusion hf
    next enemy hf =>
      have henemy : enemy ∈ es := List.mem_of_find?_eq_some hf
      have hid : enemy.id = i := by simpa using List.find?_some hf
      by_cases hhit :
          projectile_hits ⟨pid, ptr, pdir, pvel, some i⟩ enemy = true
      · rw [if_pos hhit]
        constructor
        · intro hcon
          exact ProjOutcome.noConfusion hcon
        · rintro ⟨e, he, hti, hmiss⟩
          rw [Option.some_inj] at hti
          subst hti
          have : e = enemy := enemy_id_inj hnd e he enemy henemy hid.symm
          subst this
          rw [hhit] at hmiss
          exact Bool.noConfusion hmiss
      · rw [if_neg hhit]
        rw [Bool.not_eq_true] at hhit
        constructor
        · intro _
          exact ⟨enemy, henemy, by rw [hid], hhit⟩
        · intro _
          rfl

/-- A projectile with a target despawns the enemy `e` exactly when `e`
is its own locked target and the overlap test fires. -/
theorem projectile_outcome_despawnBoth_iff {es : List Enemy} (hnd : (es.map Enemy.id).Nodup)
    {p : Projectile} (h : p.target ≠ none) {e : Enemy} (he : e ∈ es) :
    projectile_outcome es p = ProjOutcome.despawnBoth e.id ↔
      p.target = some e.id ∧ projectile_hits p e = true := by
  obtain ⟨pid, ptr, pdir, pvel, ptgt⟩ := p
  cases ptgt with
  | none => exact absurd rfl h
  | some i =>
    simp only [projectile_outcome]
    split
    next hf =>
      constructor
      · intro hcon
        exact ProjOutcome.noConfusion hcon
      · rintro ⟨hti, -⟩
        rw [Option.some_inj] at hti
        subst hti
        rw [find_id_of_mem_nodup hnd he] at hf
        exact Option.noConfusion hf
    next enemy hf =>
      have henemy : enemy ∈ es := List.mem_of_find?_eq_some hf
      have hid : enemy.id = i := by simpa using List.find?_some hf
      by_cases hhit :
          projectile_hits ⟨pid, ptr, pdir, pvel, some i⟩ enemy = true
      · rw [if_pos hhit]
        constructor
        · intro hdb
          have hie : i = e.id := by
            cases hdb
            rfl
          subst hie
          have : enemy = e := enemy_id_inj hnd enemy henemy e he hid
          subst this
          exact ⟨rfl, hhit⟩
        · rintro ⟨hti, -⟩
          rw [Option.some_inj] at hti
          subst hti
          rfl
      · rw [if_neg hhit]
        constructor
        · intro hcon
          exact ProjOutcome.noConfusion hcon
        · rintro ⟨hti, hhite⟩
          rw [Option.some_inj] at hti
          subst hti
          have : e = enemy := enemy_id_inj hnd e he enemy henemy hid.symm
          subst this
          exact absurd hhite hhit

/-- C4, counterexample: the enemy box the code tests does NOT have the
claimed half-extents 5×5; it has half-extents `transform.scale / 2`,
which is `(1/2, 1/2)` for spawned enemies (`Transform::from_xyz` leaves
scale at 1; the 10×10 size lives in the mesh, not the transform).  A
projectile 4 units from its target enemy overlaps the claimed box but
not the code's box, and the code destroys nothing. -/
theorem projectile_box_not_render_size :
    check_projectile_one [enemyFour] projOrigin = Except.ok ProjOutcome.keep ∧
    check_projectile_one_claimed [enemyFour] projOrigin =
      Except.ok (ProjOutcome.despawnBoth 3) ∧
    check_projectile_collision [projOrigin] [enemyFour] =
      Except.ok ([projOrigin], [enemyFour]) := by
  refine ⟨?_, ?_, ?_⟩ <;>
    norm_num [check_projectile_one, check_projectile_one_claimed,
      check_projectile_collision, collect_outcomes, projectile_hits, List.find?,
      circleAabbIntersects, closestPointAabb, clampQ, dist2v2, Vec2.normSq,
      Vec2.sub, Vec2.half, Vec3.truncate, enemyFour, projOrigin, min_def, max_def] <;>
    rfl

/-- C4, amended: for every live projectile (all of which carry a
target, per C8), `check_projectile_collision` panics never; it keeps a
projectile exactly when its target still resolves to a live enemy that
the radius-2.5 circle does not overlap (so a dead target or an overlap
destroys the projectile), it destroys an enemy exactly when some
projectile locked on that enemy overlaps it — the enemy box having
half-extents `transform.scale / 2`, i.e. 0.5×0.5 for spawned enemies,
not the claimed 5×5 — and a projectile can destroy only its own single
target. -/
theorem check_projectile_collision_spec (ps : List Projectile) (es : List Enemy)
    (htgt : ∀ p ∈ ps, p.target ≠ none)
    (hnd : (es.map Enemy.id).Nodup) :
    ∃ ps' es', check_projectile_collision ps es = Except.ok (ps', es') ∧
      (∀ p ∈ ps, (p ∈ ps' ↔
        ∃ e ∈ es, p.target = some e.id ∧ projectile_hits p e = false)) ∧
      (∀ e ∈ es, (e ∈ es' ↔
        ¬ ∃ p ∈ ps, p.target = some e.id ∧ projectile_hits p e = true)) ∧
      (∀ p ∈ ps, ∀ e1 ∈ es, ∀ e2 ∈ es,
        p.target = some e1.id → p.target = some e2.id → e1 = e2) := by
  have hcoll := collect_outcomes_eq es ps htgt
  have hcp : check_projectile_collision ps es =
      Except.ok
        (ps.filterMap fun q =>
           match projectile_outcome es q with
           | ProjOutcome.keep => some q
           | _ => none,
         es.filter fun e =>
           !((ps.filterMap fun q =>
               match projectile_outcome es q with
               | ProjOutcome.despawnBoth i => some i
               | _ => none).contains e.id)) := by
    simp only [check_projectile_collision, hcoll, List.filterMap_map]
    rfl
  refine ⟨_, _, hcp, ?_, ?_, ?_⟩
  · intro p hp
    rw [List.mem_filterMap]
    constructor
    · rintro ⟨q, hq, hfq⟩
      rcases ho : projectile_outcome es q with _ | _ | i <;> rw [ho] at hfq
      · rw [Option.some_inj] at hfq
        subst hfq
        exact (projectile_outcome_keep_iff hnd (htgt q hq)).mp ho
      · exact Option.noConfusion hfq
      · exact Option.noConfusion hfq
    · intro hex
      refine ⟨p, hp, ?_⟩
      rw [(projectile_outcome_keep_iff hnd (htgt p hp)).mpr hex]
  · intro e he
    rw [List.mem_filter]
    constructor
    · rintro ⟨-, hcond⟩
      rintro ⟨p, hp, htp, hhit⟩
      rw [Bool.not_eq_eq_eq_not, Bool.not_true] at hcond
      have hmem : e.id ∈ ps.filterMap fun q =>
          match projectile_outcome es q with
          | ProjOutcome.despawnBoth i => some i
          | _ => none := by
        rw [List.mem_filterMap]
        refine ⟨p, hp, ?_⟩
        rw [(projectile_outcome_despawnBoth_iff hnd (htgt p hp) he).mpr ⟨htp, hhit⟩]
      have hcont : (ps.filterMap fun q =>
          match projectile_outcome es q with
          | ProjOutcome.despawnBoth i => some i
          | _ => none).contains e.id = true := List.elem_iff.mpr hmem
      rw [hcont] at hcond
      exact Bool.noConfusion hcond
    · intro hnex
      refine ⟨he, ?_⟩
      rw [Bool.not_eq_eq_eq_not, Bool.not_true]
      by_contra hc
      rw [Bool.not_eq_false] at hc
      obtain ⟨q, hq, hfq⟩ := List.mem_filterMap.mp (List.elem_iff.mp hc)
      rcases ho : projectile_outcome es q with _ | _ | i <;> rw [ho] at hfq
      · exact Option.noConfusion hfq
      · exact Option.noConfusion hfq
      · rw [Option.some_inj] at hfq
        subst hfq
        obtain ⟨htq, hhq⟩ :=
          (projectile_outcome_despawnBoth_iff hnd (htgt q hq) he).mp ho
        exact hnex ⟨q, hq, htq, hhq⟩
  · intro p hp e1 he1 e2 he2 h1 h2
    rw [h1, Option.some_inj] at h2
    exact enemy_id_inj hnd e1 he1 e2 he2 h2

/-- C4, witness for the amended theorem: it applies to the singleton
world of a projectile 4 units from its locked target. -/
theorem check_projectile_collision_spec_witness :
    ∃ r, check_projectile_collision [projOrigin] [enemyFour] = Except.ok r := by
  obtain ⟨ps', es', h, -, -, -⟩ :=
    check_projectile_collision_spec [projOrigin] [enemyFour]
      (by simp [projOrigin]) (by simp [enemyFour])
  exact ⟨(ps', es'), h⟩

/-- C8: every projectile the simulation creates carries a target handle
at creation (`tower_shoot_target` is the only creation site and always
writes `Target(Some(enemy))`), and on any projectile population whose
targets are all present — i.e. everything the simulation can produce —
`check_projectile_collision` returns normally: the `expect` panic
branch for a target-less projectile is unreachable. -/
theorem projectile_target_nonempty_no_panic :
    (∀ (dt : ℚ) (enemies : List Enemy) (tw : Tower) (freshId : EntityId) (p : Projectile),
      (tower_shoot_target dt enemies tw freshId).2 = some p → p.target ≠ none) ∧
    (∀ (ps : List Projectile) (es : List Enemy), (∀ p ∈ ps, p.target ≠ none) →
      ∃ r, check_projectile_collision ps es = Except.ok r) := by
  constructor
  · intro dt enemies tw freshId p hp
    simp only [tower_shoot_target] at hp
    split at hp
    · simp at hp
    · split at hp
      · simp at hp
      · split at hp
        · split at hp
          · simp only [Option.some_inj] at hp
            subst hp
            simp
          · simp at hp
        · simp at hp
  · intro ps es h
    have hcoll := collect_outcomes_eq es ps h
    unfold check_projectile_collision
    rw [hcoll]
    exact ⟨_, rfl⟩

/-- C8, witness: the no-panic half applied to a singleton projectile
population with a present target. -/
theorem projectile_target_nonempty_no_panic_witness :
    ∃ r, check_projectile_collision [projAtEnemy] [enemyHit] = Except.ok r :=
  projectile_target_nonempty_no_panic.2 [projAtEnemy] [enemyHit] (by simp [projAtEnemy])

/-- C7, counterexample: the tower/enemy target link can dangle at an
observable point.  Targeting locks the tower onto enemy 1; the very
same tick, the projectile collision resolver destroys enemy 1, and the
tower still holds `Some(1)` — a handle to a destroyed enemy — until the
next tick's targeting pass. -/
theorem tower_target_dangles :
    (tower_choose_target [enemyHit] towerW).target = some enemyHit.id ∧
    check_projectile_collision [projAtEnemy] [enemyHit] = Except.ok ([], []) := by
  constructor
  · rfl
  · norm_num [check_projectile_collision, collect_outcomes, check_projectile_one,
      projectile_hits, List.find?, circleAabbIntersects, closestPointAabb, clampQ,
      dist2v2, Vec2.normSq, Vec2.sub, Vec2.half, Vec3.truncate, projAtEnemy,
      enemyHit, min_def, max_def]

/-- C7, amended: the invariant holds at the observation point directly
after the targeting pass — there the tower's target is `none` exactly
when no enemy is alive, and any written handle is a live enemy's id —
but an enemy destroyed later in the same tick leaves the stored handle
dangling until the next targeting pass, and consumers revalidate it
(`tower_shoot_target` re-resolves the handle before firing). -/
theorem tower_target_live_immediately_after_targeting (enemies : List Enemy) (tw : Tower) :
    (enemies = [] → (tower_choose_target enemies tw).target = none) ∧
    (∀ i, (tower_choose_target enemies tw).target = some i → i ∈ enemies.map Enemy.id) := by
  constructor
  · intro h
    subst h
    rfl
  · intro i hi
    cases enemies with
    | nil => exact Option.noConfusion hi
    | cons e rest =>
      obtain ⟨c, hc, -, -, hcase⟩ := closest_loop_characterization
        tw.transform.translation rest (e.id, dist2 e.transform.translation tw.transform.translation)
      rw [tower_choose_target] at hi
      simp only [closest_enemy_loop, hc, Option.map_some, Option.some_inj] at hi
      rcases hcase with hcb | ⟨pre, x, post, hsplit, hcx, -, -⟩
      · rw [hcb] at hi
        have hei : e.id = i := by simpa using hi
        subst hei
        exact List.mem_map_of_mem Enemy.id (List.mem_cons_self e rest)
      · rw [hcx] at hi
        have hxi : x.id = i := by simpa using hi
        subst hxi
        refine List.mem_map_of_mem Enemy.id (List.mem_cons_of_mem e ?_)
        rw [hsplit]
        exact List.mem_append_right pre (List.mem_cons_self x post)

/-- C7, witness for the amended theorem: after targeting with one live
enemy, the stored handle is that enemy's id, a member of the live set. -/
theorem tower_target_live_immediately_after_targeting_witness :
    (1 : EntityId) ∈ [enemyHit].map Enemy.id :=
  (tower_target_live_immediately_after_targeting [enemyHit] towerW).2 1 rfl

